import Mathlib

/-
Verification development for the inDrive geotracks analytics repository.

The repository ships a TypeScript dashboard (components AnomalyDetection,
PopularRoutes, HeatmapVisualization, ProjectMetrics) over hardcoded sample
data, together with a README and slides that document the analytic core
(H3 aggregation, k-anonymity, DBSCAN clustering, Isolation Forest scoring)
and its configuration constants. The dashboard code and the README
configuration are embedded below directly from the source; the analytic
core itself (PrivacyAggregator, TripFeatureExtractor, AnomalyScorer,
QueryFacade) is not among the repository's files, so those operations are
modelled from the specification's words, as marked on each definition.
-/

namespace Geo

/-! ## Dashboard embedding: the AnomalyDetection component -/

/-- Record shape of the `anomalies` sample array in the AnomalyDetection
component. `confidence` is the anomaly score shown in the UI; the remaining
fields are the display strings of the source object. -/
structure AnomalyItem where
  id : ℕ
  type : String
  severity : String
  description : String
  timestamp : String
  location : String
  tripId : String
  duration : String
  expectedDuration : String
  distance : String
  expectedDistance : String
  confidence : ℚ
  riskFactors : List String
deriving DecidableEq

/-- The `anomalies` sample array of the AnomalyDetection component, in its
source order. -/
def anomalies : List AnomalyItem :=
  [ { id := 1, type := "Unusual Route", severity := "High",
      description := "Trip took significantly longer detour than optimal route",
      timestamp := "2024-01-15 14:23:45", location := "District 5, Zone A",
      tripId := "T-2024-001247", duration := "47 min", expectedDuration := "18 min",
      distance := "28.5 km", expectedDistance := "12.3 km", confidence := 94/100,
      riskFactors := ["Unusual Route", "Extended Duration", "Remote Area"] },
    { id := 2, type := "Speed Anomaly", severity := "Medium",
      description := "Vehicle speed patterns inconsistent with traffic conditions",
      timestamp := "2024-01-15 12:15:22", location := "Highway Section B2",
      tripId := "T-2024-001198", duration := "25 min", expectedDuration := "22 min",
      distance := "35.2 km", expectedDistance := "33.1 km", confidence := 78/100,
      riskFactors := ["Speed Variation", "Traffic Inconsistency"] },
    { id := 3, type := "Time Anomaly", severity := "Low",
      description := "Trip occurred during unusually low-demand period",
      timestamp := "2024-01-15 03:45:12", location := "Business District",
      tripId := "T-2024-001089", duration := "12 min", expectedDuration := "15 min",
      distance := "8.7 km", expectedDistance := "9.2 km", confidence := 65/100,
      riskFactors := ["Off-Peak Hours", "Business Area"] },
    { id := 4, type := "Geographic Outlier", severity := "High",
      description := "Trip endpoint in isolated area with low historical activity",
      timestamp := "2024-01-15 19:34:56", location := "Rural Zone R7",
      tripId := "T-2024-001312", duration := "38 min", expectedDuration := "25 min",
      distance := "42.1 km", expectedDistance := "28.4 km", confidence := 89/100,
      riskFactors := ["Isolated Destination", "Low Activity Area", "Late Hours"] } ]

/-- ASCII lowercasing of one character, the effect of JavaScript
`toLowerCase()` on the ASCII data used by the component. -/
def lcChar (c : Char) : Char :=
  if 65 ≤ c.toNat ∧ c.toNat ≤ 90 then Char.ofNat (c.toNat + 32) else c

/-- Lowercased character data of a string (`s.toLowerCase()` on ASCII data). -/
def lcStr (s : String) : List Char := s.data.map lcChar

/-- Whether `needle` stands at the start of `hay` (character-list version). -/
def charsPre : List Char → List Char → Bool
  | [], _ => true
  | _ :: _, [] => false
  | a :: as, b :: bs => a == b && charsPre as bs

/-- Whether `needle` occurs contiguously inside `hay`: JavaScript
`hay.includes(needle)` over character data. -/
def charsSub (needle : List Char) : List Char → Bool
  | [] => charsPre needle []
  | b :: bs => charsPre needle (b :: bs) || charsSub needle bs

/-- Severity filter of the component:
`selectedSeverity === "all" || anomaly.severity.toLowerCase() === selectedSeverity`. -/
def matchesSeverity (a : AnomalyItem) (sel : String) : Bool :=
  sel == "all" || lcStr a.severity == sel.data

/-- Type filter of the component:
`selectedType === "all" || anomaly.type.toLowerCase().includes(selectedType)`. -/
def matchesType (a : AnomalyItem) (sel : String) : Bool :=
  sel == "all" || charsSub sel.data (lcStr a.type)

/-- The component's `filteredAnomalies`: `anomalies.filter` with the severity
and type conditions conjoined. -/
def filteredAnomalies (sev typ : String) : List AnomalyItem :=
  anomalies.filter (fun a => matchesSeverity a sev && matchesType a typ)

/-- The component's `getSeverityColor` switch: three recognized severity
labels and a default badge class for everything else. -/
def getSeverityColor (severity : String) : String :=
  if severity == "High" then "bg-destructive text-destructive-foreground"
  else if severity == "Medium" then "bg-warning text-warning-foreground"
  else if severity == "Low" then "bg-muted text-muted-foreground"
  else "bg-secondary text-secondary-foreground"

/-! ## Dashboard embedding: the PopularRoutes component -/

/-- Record shape of the `routes` sample array in the PopularRoutes component.
The source fields `from` and `to` are Lean keywords and appear here as
`fromName` and `toName`. -/
structure RouteItem where
  id : ℕ
  fromName : String
  toName : String
  trips : ℕ
  frequency : ℕ
  avgDuration : String
  avgDistance : String
  peakHours : String
  efficiency : String
  category : String
deriving DecidableEq

/-- The `routes` sample array of the PopularRoutes component, in its source
order. The component renders this list as-is (`routes.map`), applying no
sorting for any selected metric or time range. -/
def routes : List RouteItem :=
  [ { id := 1, fromName := "City Center", toName := "Airport Terminal",
      trips := 1247, frequency := 95, avgDuration := "24 min",
      avgDistance := "18.5 km", peakHours := "6-9 AM", efficiency := "High",
      category := "Business" },
    { id := 2, fromName := "Business District", toName := "Residential Area A",
      trips := 892, frequency := 78, avgDuration := "16 min",
      avgDistance := "12.3 km", peakHours := "5-7 PM", efficiency := "Medium",
      category := "Commuter" },
    { id := 3, fromName := "Shopping Mall", toName := "University",
      trips := 634, frequency := 65, avgDuration := "19 min",
      avgDistance := "14.7 km", peakHours := "2-4 PM", efficiency := "High",
      category := "Student" },
    { id := 4, fromName := "Train Station", toName := "Hotel District",
      trips := 543, frequency := 52, avgDuration := "13 min",
      avgDistance := "8.9 km", peakHours := "All Day", efficiency := "Very High",
      category := "Tourism" },
    { id := 5, fromName := "Hospital Complex", toName := "Pharmacy District",
      trips := 312, frequency := 38, avgDuration := "11 min",
      avgDistance := "6.2 km", peakHours := "9-11 AM", efficiency := "Medium",
      category := "Healthcare" } ]

/-- The route list the PopularRoutes component displays for a selected metric
and time range: the component ignores both controls when rendering, so the
displayed sequence is always the `routes` array in source order. -/
def displayedRoutes (_metric _timeRange : String) : List RouteItem := routes

/-! ## README configuration constants -/

/-- H3 spatial aggregation level from the README configuration section. -/
def H3_RESOLUTION : ℕ := 9

/-- K-anonymity parameter from the README configuration section. -/
def MIN_TRIPS_PER_HEX : ℕ := 5

/-- DBSCAN distance threshold from the README configuration section. -/
def DBSCAN_EPS : ℚ := 1/100

/-- DBSCAN minimum cluster size from the README configuration section. -/
def DBSCAN_MIN_SAMPLES : ℕ := 10

/-- Expected anomaly rate of the Isolation Forest from the README. -/
def ISOLATION_CONTAMINATION : ℚ := 1/10

/-- Feature list the Isolation Forest is configured on, from the README:
`ISOLATION_FEATURES = ['duration', 'distance', 'speed']`. -/
def ISOLATION_FEATURES : List String := ["duration", "distance", "speed"]

/-! ## Spec-modelled analytic core

The Python notebooks named by the README (ingest, preprocessing, clustering,
anomalies) are not among the repository's files; the definitions below model
the components the spec describes for them, faithful to the spec's words.
Coordinates and scores are rationals, timestamps are integers (seconds). -/

/-- Modelled from the spec: the TripPoint input record, `{trip_id, timestamp,
lat, lon}` of the data model (the source notebooks are absent). -/
structure TripPoint where
  trip_id : String
  timestamp : ℤ
  lat : ℚ
  lon : ℚ
deriving DecidableEq

/-- Modelled from the spec: an opaque hexagonal-cell identifier. The model
uses an integer grid pair; what the claims rely on is only that it is a
deterministic function of (lat, lon, resolution) with coarser resolutions
giving larger cells. -/
abbrev SpatialCell := ℤ × ℤ

/-- Modelled from the spec: SpatialIndexer `cellOf(lat, lon, resolution)`.
H3 hexagonal indexing is an external library; the model bins coordinates on
a deterministic grid whose scale doubles with each resolution step, so a
cell at resolution `res - 1` is a coarser parent of cells at `res`. -/
def cellOf (res : ℕ) (lat lon : ℚ) : SpatialCell :=
  (⌊lat * 2 ^ res⌋, ⌊lon * 2 ^ res⌋)

/-- Modelled from the spec: the TimeBucket, a timestamp coarsened to a
fixed-width window. -/
def bucketOf (w : ℤ) (t : ℤ) : ℤ := t / w

/-- Modelled from the spec: the configuration struct of the aggregation
stage (`h3_resolution`, `time_bucket_width`, `k_min`). -/
structure AggConfig where
  h3_resolution : ℕ
  time_bucket_width : ℤ
  k_min : ℕ
deriving DecidableEq

/-- Modelled from the spec: the AggregateBin record `{cell, bucket,
trip_count}` (the `distinct_trip_ids_hint` display field is omitted; no
claim concerns it). -/
structure AggregateBin where
  cell : SpatialCell
  bucket : ℤ
  trip_count : ℕ
deriving DecidableEq

/-- Composite (cell, time-bucket) anonymization key of a point at the given
resolution and bucket width. -/
def keyAt (res : ℕ) (w : ℤ) (p : TripPoint) : SpatialCell × ℤ :=
  (cellOf res p.lat p.lon, bucketOf w p.timestamp)

/-- Tally of a key list: each distinct key paired with its occurrence count
(the explicit keyed-record form the spec's design notes prescribe for the
dict-of-dicts aggregation of the source). -/
def tally (keys : List (SpatialCell × ℤ)) : List ((SpatialCell × ℤ) × ℕ) :=
  keys.dedup.map (fun k => (k, keys.countP (fun x => decide (x = k))))

/-- One widening stage of the aggregator: points are keyed by `keyf` and
tallied; keys meeting the `kmin` floor become bins, and the points of keys
below the floor are handed to the next (coarser) stage. -/
def stageBins (keyf : TripPoint → SpatialCell × ℤ) (kmin : ℕ) (pts : List TripPoint) :
    List AggregateBin × List TripPoint :=
  let keys := pts.map keyf
  (((tally keys).filter (fun kc => decide (kmin ≤ kc.2))).map
      (fun kc => ⟨kc.1.1, kc.1.2, kc.2⟩),
    pts.filter (fun p => decide (keys.countP (fun x => decide (x = keyf p)) < kmin)))

/-- Modelled from the spec: PrivacyAggregator `aggregate(points,
bucket_width, k_min)`. Points are keyed by (cell, time-bucket) and tallied;
a key below `k_min` is merged by widening the time bucket first, then the
spatial resolution, and a group still below the floor after the widening
pass is suppressed (dropped, not emitted). -/
def aggregate (cfg : AggConfig) (pts : List TripPoint) : List AggregateBin :=
  let s1 := stageBins (keyAt cfg.h3_resolution cfg.time_bucket_width) cfg.k_min pts
  let s2 := stageBins (keyAt cfg.h3_resolution (2 * cfg.time_bucket_width)) cfg.k_min s1.2
  let s3 := stageBins (keyAt (cfg.h3_resolution - 1) (2 * cfg.time_bucket_width)) cfg.k_min s2.2
  s1.1 ++ s2.1 ++ s3.1

/-- Modelled from the spec: QueryFacade `getHeatmap(time_range,
region_filter)`, returning the aggregate bins whose time bucket falls in the
requested range (an empty result is valid). -/
def getHeatmap (cfg : AggConfig) (tLo tHi : ℤ) (pts : List TripPoint) : List AggregateBin :=
  (aggregate cfg pts).filter (fun b => decide (tLo ≤ b.bucket) && decide (b.bucket ≤ tHi))

/-- Modelled from the spec: the per-record fault taxonomy of feature
extraction. -/
inductive ExtractErr where
  | InsufficientPoints
  | NonMonotonicTimestamps
  | DegenerateTrip
deriving DecidableEq

/-- Modelled from the spec: the FeatureVector record `{duration_s,
distance_m, avg_speed_mps, start_cell, end_cell, straight_line_ratio}`. -/
structure FeatureVector where
  duration_s : ℚ
  distance_m : ℚ
  avg_speed_mps : ℚ
  start_cell : SpatialCell
  end_cell : SpatialCell
  straight_line_ratio : ℚ
deriving DecidableEq

/-- Sum of distances between consecutive points under the distance function
`d` (the spec's great-circle accumulation, abstracted over the metric). -/
def pathDist (d : TripPoint → TripPoint → ℚ) : List TripPoint → ℚ
  | p :: q :: rest => d p q + pathDist d (q :: rest)
  | _ => 0

/-- Whether consecutive timestamps never decrease (the spec's monotonicity
check: extraction fails if any consecutive pair decreases). -/
def timesNondecreasing : List TripPoint → Bool
  | p :: q :: rest => decide (p.timestamp ≤ q.timestamp) && timesNondecreasing (q :: rest)
  | _ => true

/-- Whether consecutive timestamps strictly increase. -/
def timesIncreasing : List TripPoint → Bool
  | p :: q :: rest => decide (p.timestamp < q.timestamp) && timesIncreasing (q :: rest)
  | _ => true

/-- Clamp to the unit interval, the spec's absorption of GPS jitter in the
straight-line ratio. -/
def clamp01 (x : ℚ) : ℚ := max 0 (min 1 x)

/-- Default point used only to give head/last of a point list a total
reading. -/
def dfltPoint : TripPoint := ⟨"", 0, 0, 0⟩

/-- Duration of a trip's ordered point list: last timestamp minus first. -/
def tripDuration (pts : List TripPoint) : ℤ :=
  (pts.getLastD dfltPoint).timestamp - (pts.headD dfltPoint).timestamp

/-- Modelled from the spec: TripFeatureExtractor `extract(trip)`. Fails with
`InsufficientPoints` below 2 points, `NonMonotonicTimestamps` when a
consecutive timestamp pair decreases, and `DegenerateTrip` when the duration
is not positive; otherwise distance is the summed consecutive distance under
`d` (the great-circle metric, passed as a parameter since it is external to
the model), average speed is distance over duration, and the straight-line
ratio is first-to-last distance over traveled distance clamped to [0,1]. -/
def extract (res : ℕ) (d : TripPoint → TripPoint → ℚ) (pts : List TripPoint) :
    Except ExtractErr FeatureVector :=
  match pts with
  | p0 :: p1 :: rest =>
    if timesNondecreasing (p0 :: p1 :: rest) then
      let pLast := (p1 :: rest).getLastD p0
      let dur : ℤ := pLast.timestamp - p0.timestamp
      if dur ≤ 0 then .error .DegenerateTrip
      else
        let dist := pathDist d (p0 :: p1 :: rest)
        .ok { duration_s := (dur : ℚ), distance_m := dist,
              avg_speed_mps := dist / (dur : ℚ),
              start_cell := cellOf res p0.lat p0.lon,
              end_cell := cellOf res pLast.lat pLast.lon,
              straight_line_ratio := clamp01 (d p0 pLast / dist) }
    else .error .NonMonotonicTimestamps
  | _ => .error .InsufficientPoints

/-- Concrete stand-in metric used to evaluate the model on concrete inputs:
the taxicab distance on coordinates. The great-circle distance itself is
transcendental; the properties the claims use (nonnegativity, zero between
identical coordinates) hold of both. -/
def taxiDist (p q : TripPoint) : ℚ := |p.lat - q.lat| + |p.lon - q.lon|

/-- Modelled from the spec: the batch run over per-trip point lists. Each
trip is feature-extracted independently; successes feed clustering and
scoring, failures are recorded per trip with their reason (the `DROPPED`
terminal state), and no failure aborts the batch. -/
def runBatch (res : ℕ) (d : TripPoint → TripPoint → ℚ)
    (trips : List (String × List TripPoint)) :
    List (String × FeatureVector) × List (String × ExtractErr) :=
  (trips.filterMap (fun t => (extract res d t.2).toOption.map (fun fv => (t.1, fv))),
    trips.filterMap (fun t =>
      match extract res d t.2 with
      | .error e => some (t.1, e)
      | .ok _ => none))

/-- Modelled from the spec: the severity enum of an AnomalyRecord. -/
inductive Severity where
  | LOW
  | MEDIUM
  | HIGH
deriving DecidableEq

/-- Numeric rank of a severity, for stating monotonicity of the thresholds. -/
def sevRank : Severity → ℕ
  | .LOW => 0
  | .MEDIUM => 1
  | .HIGH => 2

/-- Modelled from the spec: the AnomalyRecord `{trip_id, anomaly_score,
severity}` (`contributing_factors` is an explicitly placeholder policy in
the spec and no claim concerns it). -/
structure AnomalyRecord where
  trip_id : String
  anomaly_score : ℚ
  severity : Severity
deriving DecidableEq

/-- Modelled from the spec: the severity mapping, two threshold cuts
`tauHigh > tauMed` over the normalized score. -/
def severityOf (tauHigh tauMed : ℚ) (s : ℚ) : Severity :=
  if tauHigh ≤ s then .HIGH else if tauMed ≤ s then .MEDIUM else .LOW

/-- Modelled from the spec: AnomalyScorer scoring of a feature-vector
population. The fitted model enters as the score function `score` (the
isolation-forest ensemble is randomized and external to the model); each
trip with a valid feature vector yields one record with its score and the
thresholded severity. -/
def scoreAll (score : FeatureVector → ℚ) (tauHigh tauMed : ℚ)
    (fvs : List (String × FeatureVector)) : List AnomalyRecord :=
  fvs.map (fun t => ⟨t.1, score t.2, severityOf tauHigh tauMed (score t.2)⟩)

/-- Modelled from the spec: the RouteCluster record as the route query
returns it; `cluster_id = -1` is the DBSCAN NOISE label. -/
structure RouteCluster where
  cluster_id : ℤ
  trip_count : ℕ
  frequency_pct : ℚ
deriving DecidableEq

/-- Whether a cluster is the NOISE label. -/
def isNoise (c : RouteCluster) : Bool := c.cluster_id == -1

/-- Modelled from the spec: the `sort_by={frequency|trip_count}` choice of
`getRoutes`. -/
inductive RouteSortBy where
  | frequency
  | trip_count
deriving DecidableEq

/-- The sort metric selected by a `sort_by` choice. -/
def routeMetric : RouteSortBy → RouteCluster → ℚ
  | .frequency, c => c.frequency_pct
  | .trip_count, c => (c.trip_count : ℚ)

/-- Descending comparison on the selected metric: `a` may stand before `b`
when the metric of `a` is at least the metric of `b`. -/
def routeGE (sb : RouteSortBy) (a b : RouteCluster) : Prop :=
  routeMetric sb b ≤ routeMetric sb a

instance (sb : RouteSortBy) : DecidableRel (routeGE sb) :=
  fun a b => inferInstanceAs (Decidable (routeMetric sb b ≤ routeMetric sb a))

instance (sb : RouteSortBy) : IsTotal RouteCluster (routeGE sb) :=
  ⟨fun a b => (le_total (routeMetric sb a) (routeMetric sb b)).symm⟩

instance (sb : RouteSortBy) : IsTrans RouteCluster (routeGE sb) :=
  ⟨fun _ _ _ hab hbc => le_trans hbc hab⟩

/-- Modelled from the spec: QueryFacade `getRoutes(time_range, sort_by,
limit)` over the clusterer's output: NOISE is excluded unless explicitly
requested, the rest is ordered descending by the selected metric, and the
result is cut to `limit`. -/
def getRoutes (clusters : List RouteCluster) (sb : RouteSortBy) (limit : ℕ)
    (includeNoise : Bool) : List RouteCluster :=
  (((clusters.filter (fun c => includeNoise || ! isNoise c)).insertionSort
      (routeGE sb)).take limit)

/-! ### Concrete inputs used to evaluate the model -/

/-- Aggregation configuration for concrete evaluation: README resolution 9,
one-hour time buckets, the README k-anonymity floor 5. -/
def wCfg : AggConfig := ⟨9, 3600, 5⟩

/-- Five co-located, simultaneous points of five distinct trips. -/
def wPts : List TripPoint :=
  [⟨"T1", 0, 0, 0⟩, ⟨"T2", 0, 0, 0⟩, ⟨"T3", 0, 0, 0⟩, ⟨"T4", 0, 0, 0⟩,
    ⟨"T5", 0, 0, 0⟩]

/-- The single bin the five co-located points aggregate into. -/
def wBin : AggregateBin := ⟨(0, 0), 0, 5⟩

/-- Sample point for the permutation witness. -/
def wP : TripPoint := ⟨"P", 0, 0, 0⟩

/-- Second sample point for the permutation witness. -/
def wQ : TripPoint := ⟨"Q", 1800, 1/2, 1/2⟩

/-- A two-point trip with strictly increasing timestamps. -/
def wTrip : List TripPoint := [⟨"W", 0, 0, 0⟩, ⟨"W", 10, 1, 1⟩]

/-- A round trip: strictly increasing timestamps, start and end at the same
coordinates, so its straight-line distance is zero. -/
def roundTrip : List TripPoint :=
  [⟨"R", 0, 0, 0⟩, ⟨"R", 5, 1, 0⟩, ⟨"R", 10, 0, 0⟩]

/-- Scenario B of the spec: a trip of two identical points with one
timestamp. -/
def degTrip : List TripPoint := [⟨"B", 0, 0, 0⟩, ⟨"B", 0, 0, 0⟩]

/-- A well-formed companion trip for the batch witness. -/
def goodTrip : List TripPoint := [⟨"G", 0, 0, 0⟩, ⟨"G", 60, 1, 1⟩]

/-- Concrete feature vector for the scoring witness. -/
def wFv1 : FeatureVector := ⟨10, 2, 5, (0, 0), (1, 1), 1⟩

/-- Second concrete feature vector for the scoring witness. -/
def wFv2 : FeatureVector := ⟨20, 8, 2, (0, 0), (2, 2), 1⟩

/-- Concrete scored population for the scoring witness. -/
def wFvs : List (String × FeatureVector) := [("A", wFv1), ("B", wFv2)]

/-! ## Theorems -/

/-- Clamping to the unit interval never goes below 0. -/
theorem clamp01_nonneg (x : ℚ) : 0 ≤ clamp01 x := le_max_left _ _

/-- Clamping to the unit interval never exceeds 1. -/
theorem clamp01_le_one (x : ℚ) : clamp01 x ≤ 1 :=
  max_le (by norm_num) (min_le_left _ _)

/-- C10: `getSeverityColor` is total over severity strings — any input other
than "High", "Medium" or "Low" yields the default secondary badge class, so
the severity-to-style mapping never fails on an unrecognized value. -/
theorem getSeverityColor_total (s : String) (h1 : s ≠ "High") (h2 : s ≠ "Medium")
    (h3 : s ≠ "Low") : getSeverityColor s = "bg-secondary text-secondary-foreground" := by
  simp [getSeverityColor, h1, h2, h3]

/-- Witness for C10 at the concrete unrecognized severity "Critical". -/
theorem getSeverityColor_total_witness :
    "Critical" ≠ "High" ∧
      getSeverityColor "Critical" = "bg-secondary text-secondary-foreground" :=
  ⟨by decide, getSeverityColor_total "Critical" (by decide) (by decide) (by decide)⟩

/-- C9: the anomaly filtering returns exactly the records whose lowercased
severity equals the selection (or the selection is "all") and whose
lowercased type contains the selection as a substring (or the selection is
"all"), as a sublist of the `anomalies` array (relative order preserved);
selecting "all" for both filters returns the full list unchanged. -/
theorem filteredAnomalies_characterization : ∀ sev typ : String,
    ((∀ a, a ∈ filteredAnomalies sev typ ↔
        a ∈ anomalies ∧ matchesSeverity a sev = true ∧ matchesType a typ = true)
      ∧ (filteredAnomalies sev typ).Sublist anomalies)
    ∧ filteredAnomalies "all" "all" = anomalies := by
  intro sev typ
  refine ⟨⟨fun a => ?_, List.filter_sublist _⟩, rfl⟩
  simp [filteredAnomalies, List.mem_filter, and_assoc]

/-- C2 counterexample: with both filters at "all", the sequence the
component returns carries the confidence scores in the order
0.94, 0.78, 0.65, 0.89, which is not sorted descending — `filteredAnomalies`
applies no sorting by score. -/
theorem filteredAnomalies_not_score_sorted :
    ¬ ((filteredAnomalies "all" "all").map AnomalyItem.confidence).Sorted
        (fun a b : ℚ => b ≤ a) := by
  intro h
  rw [show (filteredAnomalies "all" "all").map AnomalyItem.confidence
      = [94/100, 78/100, 65/100, 89/100] from rfl] at h
  simp only [List.sorted_cons, List.mem_cons, List.mem_singleton] at h
  have h34 : (89 : ℚ)/100 ≤ 65/100 := h.2.2.1 _ (Or.inl rfl)
  norm_num at h34

/-- C2 amended: the anomaly filtering is order-preserving — for every
severity and type selection the returned sequence is a sublist of the
underlying `anomalies` array (and so are its trip ids), rather than being
re-sorted by score. -/
theorem filteredAnomalies_order_preserving : ∀ sev typ : String,
    (filteredAnomalies sev typ).Sublist anomalies
    ∧ ((filteredAnomalies sev typ).map AnomalyItem.tripId).Sublist
        (anomalies.map AnomalyItem.tripId) :=
  fun _ _ => ⟨List.filter_sublist _, (List.filter_sublist _).map _⟩

/-- C4 counterexample: `straight_line_ratio` is not among the configured
isolation-forest features, and the configured list has three entries, not
four. -/
theorem isolation_features_cex :
    "straight_line_ratio" ∉ ISOLATION_FEATURES ∧ ISOLATION_FEATURES.length = 3 := by
  decide

/-- C4 amended: the isolation-based outlier model is configured on the three
features duration, distance and speed; `straight_line_ratio` is not a model
feature. -/
theorem isolation_features_config :
    "duration" ∈ ISOLATION_FEATURES ∧ "distance" ∈ ISOLATION_FEATURES ∧
      "speed" ∈ ISOLATION_FEATURES ∧ "straight_line_ratio" ∉ ISOLATION_FEATURES := by
  decide

/-- C5: for every cluster population, sort choice and limit, `getRoutes`
returns a sequence ordered descending by the selected metric, containing no
NOISE cluster when NOISE is not requested and only clusters of the input;
and the dashboard's displayed route list is descending in both frequency and
trip count. -/
theorem getRoutes_sorted_excludes_noise : ∀ (clusters : List RouteCluster)
    (sb : RouteSortBy) (limit : ℕ),
    ((getRoutes clusters sb limit false).Sorted (routeGE sb)
      ∧ ∀ c ∈ getRoutes clusters sb limit false, isNoise c = false ∧ c ∈ clusters)
    ∧ (routes.map RouteItem.frequency).Sorted (fun a b => b ≤ a)
    ∧ (routes.map RouteItem.trips).Sorted (fun a b => b ≤ a) := by
  intro clusters sb limit
  refine ⟨⟨?_, fun c hc => ?_⟩, by decide, by decide⟩
  · exact List.Pairwise.sublist (List.take_sublist _ _)
      (List.sorted_insertionSort (routeGE sb) _)
  · have hc' : c ∈ (clusters.filter (fun c => false || ! isNoise c)).insertionSort
        (routeGE sb) := List.mem_of_mem_take hc
    rw [List.mem_insertionSort, List.mem_filter] at hc'
    refine ⟨?_, hc'.1⟩
    have := hc'.2
    simpa using this

/-- Bins emitted by one widening stage meet the anonymity floor. -/
theorem stageBins_kmin {keyf : TripPoint → SpatialCell × ℤ} {kmin : ℕ}
    {pts : List TripPoint} {b : AggregateBin}
    (hb : b ∈ (stageBins keyf kmin pts).1) : kmin ≤ b.trip_count := by
  simp only [stageBins, List.mem_map, List.mem_filter, decide_eq_true_eq] at hb
  obtain ⟨kc, ⟨-, hk⟩, rfl⟩ := hb
  exact hk

/-- C1: every bin emitted by `aggregate` — and hence every bin visible
through `getHeatmap` — has `trip_count ≥ k_min`; a (cell, time-bucket)
group below the floor is only ever merged into a coarser bucket or
suppressed, never emitted. -/
theorem aggregate_bins_meet_kmin (cfg : AggConfig) (tLo tHi : ℤ)
    (pts : List TripPoint) (b : AggregateBin)
    (hb : b ∈ aggregate cfg pts ∨ b ∈ getHeatmap cfg tLo tHi pts) :
    cfg.k_min ≤ b.trip_count := by
  have hagg : ∀ c : AggregateBin, c ∈ aggregate cfg pts → cfg.k_min ≤ c.trip_count := by
    intro c hc
    simp only [aggregate, List.mem_append] at hc
    rcases hc with (h | h) | h <;> exact stageBins_kmin h
  rcases hb with h | h
  · exact hagg b h
  · exact hagg b (List.mem_filter.mp h).1

unseal Rat.mul Rat.inv Rat.add Rat.sub in
/-- Witness for C1: the five co-located points produce one emitted bin of
count 5 meeting the floor `k_min = 5`. -/
theorem aggregate_bins_meet_kmin_witness :
    wBin ∈ aggregate wCfg wPts ∧ wCfg.k_min ≤ wBin.trip_count :=
  have hmem : wBin ∈ aggregate wCfg wPts := by decide
  ⟨hmem, aggregate_bins_meet_kmin wCfg 0 0 wPts wBin (Or.inl hmem)⟩

/-- Tallying is invariant, up to permutation, under permutation of the
keys. -/
theorem tally_perm {l₁ l₂ : List (SpatialCell × ℤ)} (h : l₁.Perm l₂) :
    (tally l₁).Perm (tally l₂) := by
  unfold tally
  have hf : (fun k => (k, l₁.countP (fun x => decide (x = k))))
      = fun k => (k, l₂.countP (fun x => decide (x = k))) :=
    funext fun k => by rw [h.countP_eq]
  rw [hf]
  exact (h.dedup).map _

/-- Both outputs of a widening stage are permutation-invariant in the input
points, up to permutation. -/
theorem stageBins_perm (keyf : TripPoint → SpatialCell × ℤ) (kmin : ℕ)
    {pts₁ pts₂ : List TripPoint} (h : pts₁.Perm pts₂) :
    ((stageBins keyf kmin pts₁).1.Perm (stageBins keyf kmin pts₂).1)
    ∧ ((stageBins keyf kmin pts₁).2.Perm (stageBins keyf kmin pts₂).2) := by
  have hk : (pts₁.map keyf).Perm (pts₂.map keyf) := h.map keyf
  constructor
  · simp only [stageBins]
    exact ((tally_perm hk).filter _).map _
  · simp only [stageBins]
    rw [show (fun p => decide ((pts₁.map keyf).countP (fun x => decide (x = keyf p)) < kmin))
        = fun p => decide ((pts₂.map keyf).countP (fun x => decide (x = keyf p)) < kmin) from
      funext fun p => by rw [hk.countP_eq]]
    exact h.filter _

/-- C8: `aggregate` is a pure, deterministic function of the input batch as
a multiset — presenting the same batch in any order (in particular,
re-running on the identical list) produces the identical multiset of
AggregateBin; as a Lean function it can have no side effect on its input. -/
theorem aggregate_multiset_deterministic (cfg : AggConfig)
    (pts₁ pts₂ : List TripPoint) (h : pts₁.Perm pts₂) :
    (↑(aggregate cfg pts₁) : Multiset AggregateBin) = ↑(aggregate cfg pts₂) := by
  rw [Multiset.coe_eq_coe]
  simp only [aggregate]
  have h1 := stageBins_perm (keyAt cfg.h3_resolution cfg.time_bucket_width) cfg.k_min h
  have h2 := stageBins_perm (keyAt cfg.h3_resolution (2 * cfg.time_bucket_width))
    cfg.k_min h1.2
  have h3 := stageBins_perm (keyAt (cfg.h3_resolution - 1) (2 * cfg.time_bucket_width))
    cfg.k_min h2.2
  exact (h1.1.append h2.1).append h3.1

/-- Witness for C8: two concrete batches that are permutations of each other
aggregate to the same multiset of bins. -/
theorem aggregate_multiset_deterministic_witness :
    ([wP, wQ] : List TripPoint).Perm [wQ, wP]
    ∧ (↑(aggregate wCfg [wP, wQ]) : Multiset AggregateBin) = ↑(aggregate wCfg [wQ, wP]) :=
  ⟨List.Perm.swap wQ wP [],
    aggregate_multiset_deterministic wCfg [wP, wQ] [wQ, wP] (List.Perm.swap wQ wP [])⟩

/-- Strictly increasing consecutive timestamps are in particular
nondecreasing. -/
theorem timesIncreasing_nondecreasing : ∀ pts : List TripPoint,
    timesIncreasing pts = true → timesNondecreasing pts = true
  | [], _ => rfl
  | [_], _ => rfl
  | p :: q :: rest, h => by
    have hsplit : timesIncreasing (p :: q :: rest)
        = (decide (p.timestamp < q.timestamp) && timesIncreasing (q :: rest)) := rfl
    rw [hsplit, Bool.and_eq_true, decide_eq_true_eq] at h
    have htail := timesIncreasing_nondecreasing (q :: rest) h.2
    show (decide (p.timestamp ≤ q.timestamp) && timesNondecreasing (q :: rest)) = true
    rw [Bool.and_eq_true, decide_eq_true_eq]
    exact ⟨le_of_lt h.1, htail⟩

/-- Under strictly increasing consecutive timestamps, the first timestamp is
strictly below the last one. -/
theorem timesIncreasing_head_lt_last : ∀ (p0 p1 : TripPoint) (rest : List TripPoint),
    timesIncreasing (p0 :: p1 :: rest) = true →
    p0.timestamp < ((p1 :: rest).getLastD p0).timestamp := by
  intro p0 p1 rest
  induction rest generalizing p0 p1 with
  | nil =>
    intro h
    have hsplit : timesIncreasing [p0, p1]
        = (decide (p0.timestamp < p1.timestamp) && timesIncreasing [p1]) := rfl
    rw [hsplit, Bool.and_eq_true, decide_eq_true_eq] at h
    exact h.1
  | cons q rs ih =>
    intro h
    have hsplit : timesIncreasing (p0 :: p1 :: q :: rs)
        = (decide (p0.timestamp < p1.timestamp) && timesIncreasing (p1 :: q :: rs)) := rfl
    rw [hsplit, Bool.and_eq_true, decide_eq_true_eq] at h
    have htail := ih p1 q h.2
    rw [List.getLastD_cons]
    exact lt_trans h.1 htail

/-- C3 amended: for every distance function, every trip of at least two
points with strictly increasing timestamps extracts successfully to a
feature vector whose average speed equals distance over duration exactly
and whose straight-line ratio lies in the closed interval [0,1] (the ratio
is 0 exactly when the trip returns to its starting coordinates, so the open
lower bound of the original claim fails). -/
theorem extract_succeeds (res : ℕ) (d : TripPoint → TripPoint → ℚ)
    (pts : List TripPoint) (h2 : 2 ≤ pts.length)
    (hinc : timesIncreasing pts = true) :
    ∃ fv, extract res d pts = .ok fv
      ∧ fv.avg_speed_mps = fv.distance_m / fv.duration_s
      ∧ 0 ≤ fv.straight_line_ratio ∧ fv.straight_line_ratio ≤ 1 := by
  match pts, h2, hinc with
  | p0 :: p1 :: rest, _, hinc =>
    have hmono := timesIncreasing_nondecreasing _ hinc
    have hlt := timesIncreasing_head_lt_last p0 p1 rest hinc
    have hdur : ¬ (((p1 :: rest).getLast?.getD p0).timestamp ≤ p0.timestamp) := by
      rw [← List.getLastD_eq_getLast?]
      omega
    have hext : extract res d (p0 :: p1 :: rest) = .ok
        { duration_s := ((((p1 :: rest).getLastD p0).timestamp - p0.timestamp : ℤ) : ℚ),
          distance_m := pathDist d (p0 :: p1 :: rest),
          avg_speed_mps := pathDist d (p0 :: p1 :: rest) /
            ((((p1 :: rest).getLastD p0).timestamp - p0.timestamp : ℤ) : ℚ),
          start_cell := cellOf res p0.lat p0.lon,
          end_cell := cellOf res ((p1 :: rest).getLastD p0).lat
            ((p1 :: rest).getLastD p0).lon,
          straight_line_ratio := clamp01
            (d p0 ((p1 :: rest).getLastD p0) / pathDist d (p0 :: p1 :: rest)) } := by
      simp [extract, hmono, hdur]
    exact ⟨_, hext, rfl, clamp01_nonneg _, clamp01_le_one _⟩

/-- Witness for C3 at a concrete two-point trip. -/
theorem extract_succeeds_witness :
    2 ≤ wTrip.length ∧ timesIncreasing wTrip = true
    ∧ ∃ fv, extract 9 taxiDist wTrip = .ok fv
        ∧ fv.avg_speed_mps = fv.distance_m / fv.duration_s
        ∧ 0 ≤ fv.straight_line_ratio ∧ fv.straight_line_ratio ≤ 1 :=
  ⟨by decide, by decide, extract_succeeds 9 taxiDist wTrip (by decide) (by decide)⟩

unseal Rat.mul Rat.inv Rat.add Rat.sub in
/-- C3 counterexample: the round trip satisfies the claim's hypotheses
(three points, strictly increasing timestamps), yet its extracted
straight-line ratio is 0, outside the claimed half-open interval (0,1]. -/
theorem extract_slr_zero_cex :
    2 ≤ roundTrip.length ∧ timesIncreasing roundTrip = true
    ∧ (extract 9 taxiDist roundTrip).toOption.map FeatureVector.straight_line_ratio
      = some 0 := by
  refine ⟨by decide, by decide, ?_⟩
  decide

/-- C6: a trip with at least two points, nondecreasing timestamps and
nonpositive duration fails extraction with `DegenerateTrip`; placed in any
batch it contributes no feature vector (so it reaches neither clustering
nor scoring), its identifier and reason are recorded in the fault report,
and every other trip of the batch is processed exactly as without it. -/
theorem degenerate_trip_dropped (res : ℕ) (d : TripPoint → TripPoint → ℚ)
    (tid : String) (pts : List TripPoint) (ts₁ ts₂ : List (String × List TripPoint))
    (h2 : 2 ≤ pts.length) (hmono : timesNondecreasing pts = true)
    (hdur : tripDuration pts ≤ 0) :
    extract res d pts = .error .DegenerateTrip
    ∧ (runBatch res d (ts₁ ++ (tid, pts) :: ts₂)).1 = (runBatch res d (ts₁ ++ ts₂)).1
    ∧ (tid, ExtractErr.DegenerateTrip) ∈ (runBatch res d (ts₁ ++ (tid, pts) :: ts₂)).2 := by
  have hext : extract res d pts = .error .DegenerateTrip := by
    match pts, h2, hmono, hdur with
    | p0 :: p1 :: rest, _, hmono, hdur =>
      have hd : tripDuration (p0 :: p1 :: rest)
          = ((p1 :: rest).getLastD p0).timestamp - p0.timestamp := by
        unfold tripDuration
        rw [List.getLastD_cons]
        rfl
      rw [hd] at hdur
      have hdur' : ((p1 :: rest).getLast?.getD p0).timestamp ≤ p0.timestamp := by
        rw [← List.getLastD_eq_getLast?]
        omega
      simp [extract, hmono, hdur']
  refine ⟨hext, ?_, ?_⟩
  · simp [runBatch, List.filterMap_append, List.filterMap_cons, hext, Except.toOption]
  · simp [runBatch, List.filterMap_append, List.filterMap_cons, hext, Except.toOption]

/-- Witness for C6 at scenario B of the spec: the two-identical-point trip
is dropped as DegenerateTrip while the companion trip's batch output is
unaffected. -/
theorem degenerate_trip_dropped_witness :
    2 ≤ degTrip.length ∧ timesNondecreasing degTrip = true ∧ tripDuration degTrip ≤ 0
    ∧ (extract 9 taxiDist degTrip = .error .DegenerateTrip
       ∧ (runBatch 9 taxiDist ([] ++ ("B", degTrip) :: [("G", goodTrip)])).1
          = (runBatch 9 taxiDist ([] ++ [("G", goodTrip)])).1
       ∧ ("B", ExtractErr.DegenerateTrip)
          ∈ (runBatch 9 taxiDist ([] ++ ("B", degTrip) :: [("G", goodTrip)])).2) :=
  ⟨by decide, by decide, by decide,
    degenerate_trip_dropped 9 taxiDist "B" degTrip [] [("G", goodTrip)]
      (by decide) (by decide) (by decide)⟩

/-- In a keyed list with duplicate-free keys, exactly one entry carries the
key of any member. -/
theorem countP_fst_eq_one {α β : Type} [DecidableEq α] :
    ∀ (l : List (α × β)) (i : α) (fv : β), (l.map Prod.fst).Nodup → (i, fv) ∈ l →
      l.countP (fun t => decide (t.1 = i)) = 1 := by
  intro l i fv
  induction l with
  | nil => intro _ h; cases h
  | cons a tl ih =>
    intro hnd hmem
    rw [List.map_cons, List.nodup_cons] at hnd
    rcases List.mem_cons.mp hmem with heq | htl
    · have hfst : a.1 = i := by rw [← heq]
      have hzero : tl.countP (fun t => decide (t.1 = i)) = 0 := by
        rw [List.countP_eq_zero]
        intro b hb
        simp only [decide_eq_true_eq]
        intro hbi
        exact hnd.1 (List.mem_map.mpr ⟨b, hb, by rw [hbi, hfst]⟩)
      rw [List.countP_cons, hzero]
      simp [hfst]
    · have hne : ¬ (a.1 = i) := by
        intro hai
        exact hnd.1 (List.mem_map.mpr ⟨(i, fv), htl, by rw [hai]⟩)
      rw [List.countP_cons, ih hnd.2 htl]
      simp [hne]

/-- C7: over any scored population with duplicate-free trip ids, each trip
with a valid feature vector yields exactly one AnomalyRecord, a record has
severity HIGH only when its score reaches the high threshold, and the
severity mapping is monotone in the score. -/
theorem anomaly_records_exactly_once (score : FeatureVector → ℚ)
    (tauHigh tauMed : ℚ) (fvs : List (String × FeatureVector))
    (i : String) (fv : FeatureVector)
    (_htau : tauMed ≤ tauHigh) (hnd : (fvs.map Prod.fst).Nodup)
    (hmem : (i, fv) ∈ fvs) :
    (scoreAll score tauHigh tauMed fvs).countP (fun r => decide (r.trip_id = i)) = 1
    ∧ (∀ r ∈ scoreAll score tauHigh tauMed fvs,
        r.severity = .HIGH → tauHigh ≤ r.anomaly_score)
    ∧ ∀ s₁ s₂ : ℚ, s₁ ≤ s₂ →
        sevRank (severityOf tauHigh tauMed s₁) ≤ sevRank (severityOf tauHigh tauMed s₂) := by
  refine ⟨?_, ?_, ?_⟩
  · have hmap : (scoreAll score tauHigh tauMed fvs).countP (fun r => decide (r.trip_id = i))
        = fvs.countP (fun t => decide (t.1 = i)) := by
      rw [scoreAll, List.countP_map]
      rfl
    rw [hmap]
    exact countP_fst_eq_one fvs i fv hnd hmem
  · intro r hr hsev
    simp only [scoreAll, List.mem_map] at hr
    obtain ⟨t, -, rfl⟩ := hr
    simp only [severityOf] at hsev ⊢
    by_cases h : tauHigh ≤ score t.2
    · exact h
    · exfalso
      rw [if_neg h] at hsev
      by_cases h' : tauMed ≤ score t.2
      · rw [if_pos h'] at hsev
        exact Severity.noConfusion hsev
      · rw [if_neg h'] at hsev
        exact Severity.noConfusion hsev
  · intro s₁ s₂ hs
    unfold severityOf
    by_cases h1 : tauHigh ≤ s₁
    · rw [if_pos h1, if_pos (le_trans h1 hs)]
    · by_cases h2 : tauMed ≤ s₁
      · rw [if_neg h1, if_pos h2]
        by_cases h3 : tauHigh ≤ s₂
        · rw [if_pos h3]
          decide
        · rw [if_neg h3, if_pos (le_trans h2 hs)]
      · rw [if_neg h1, if_neg h2]
        exact Nat.zero_le _

/-- Witness for C7 at a concrete two-trip population. -/
theorem anomaly_records_exactly_once_witness :
    ((1 : ℚ) ≤ 4 ∧ (wFvs.map Prod.fst).Nodup ∧ ("A", wFv1) ∈ wFvs)
    ∧ ((scoreAll (fun fv => fv.distance_m) 4 1 wFvs).countP
          (fun r => decide (r.trip_id = "A")) = 1
       ∧ (∀ r ∈ scoreAll (fun fv => fv.distance_m) 4 1 wFvs,
            r.severity = .HIGH → (4 : ℚ) ≤ r.anomaly_score)
       ∧ ∀ s₁ s₂ : ℚ, s₁ ≤ s₂ →
           sevRank (severityOf 4 1 s₁) ≤ sevRank (severityOf 4 1 s₂)) :=
  ⟨⟨by norm_num, by decide, by decide⟩,
    anomaly_records_exactly_once (fun fv => fv.distance_m) 4 1 wFvs "A" wFv1
      (by norm_num) (by decide) (by decide)⟩

end Geo
